import Mathlib

/-!
Shallow embedding of the zadig job-executor step engine
(`pkg/microservice/jobexecutor/core/service/step/step.go`) and of the
environment-service renderset synchronization and concurrent fetch-merge
(`pkg/microservice/aslan/core/environment/service/renderset.go`).

External collaborators (step executors, mongo collections, the yaml merge
and structural-equality primitives, the file/download services) are modelled
as oracle parameters, exactly as the spec declares them external interfaces.
-/

namespace Zadig

/-! ### Models of the Go standard-library string operations used by step.go -/

/-- Model of Go `strings.Split(s, sep)` for a one-character separator:
splits around every instance of the separator. -/
def splitOnChar (sep : Char) : List Char → List (List Char)
  | [] => [[]]
  | a :: rest =>
    let r := splitOnChar sep rest
    if a = sep then [] :: r
    else
      match r with
      | [] => [[a]]
      | g :: gs => (a :: g) :: gs

/-- Go `strings.Split(val, "=")` on Lean strings. -/
def goSplit (s : String) (sep : Char) : List String :=
  (splitOnChar sep s.data).map String.mk

/-- Fuel-driven worker for `goReplace`: leftmost, non-overlapping replacement
of every occurrence of `old`, as Go `strings.Replace(s, old, new, -1)` does.
Fuel `s.length` suffices because each step consumes at least one character
whenever `old` is non-empty (the only way it is used in this file). -/
def replaceFuel (old new : List Char) : Nat → List Char → List Char
  | _, [] => []
  | 0, s => s
  | fuel + 1, a :: rest =>
    if old ≠ [] ∧ old.isPrefixOf (a :: rest) then
      new ++ replaceFuel old new fuel ((a :: rest).drop old.length)
    else a :: replaceFuel old new fuel rest

/-- Model of Go `strings.Replace(s, old, new, -1)` (for non-empty `old`). -/
def goReplace (s old new : String) : String :=
  ⟨replaceFuel old.data new.data s.data.length s.data⟩

/-- Model of Go `strings.Join(elems, sep)`. -/
def goJoin (elems : List String) (sep : String) : String :=
  match elems with
  | [] => ""
  | x :: xs => xs.foldl (fun acc y => acc ++ sep ++ y) x

/-! ### Secret masking (step.go `maskSecret`, `maskSecretEnvs`) -/

def secretEnvMask : String := "********"

/-- step.go `maskSecret`: replace every occurrence of each non-empty literal. -/
def maskSecret (secrets : List String) (message : String) : String :=
  secrets.foldl
    (fun out val => if val = "" then out else goReplace out val "********")
    message

/-- step.go `maskSecretEnvs`: for each `KEY=VALUE` entry that splits on `=`
into exactly two non-empty parts, replace every occurrence of the value;
otherwise skip the entry. `if len(val) == 0` is rendered as `val = ""` and
the index accesses `sl[0]`, `sl[1]` as `headD` / `getD 1`. -/
def maskSecretEnvs (message : String) (secretEnvs : List String) : String :=
  secretEnvs.foldl
    (fun out val =>
      if val = "" then out
      else
        let sl := goSplit val '='
        if sl.length ≠ 2 then out
        else if sl.headD "" = "" ∨ sl.getD 1 "" = "" then out
        else goReplace out (goJoin (sl.drop 1) "=") secretEnvMask)
    message

/-! ### Step runner (step.go `RunSteps` / `runStep`) -/

/-- Modelled from the spec: the `meta.Step` record is not under the given
sources; the spec's data model gives `{ type, spec (opaque per type),
onFailure }`, matching the fields step.go reads. -/
structure Step where
  stepType : String
  spec : Nat
  onfailure : Bool
deriving DecidableEq

/-- Oracle for the eight external step executors: each call bundles the
constructor (`NewShellStep`, ...) and `stepInstance.Run`, returning `none`
on success and the error message otherwise. -/
structure Executors where
  shell : Step → Option String
  git : Step → Option String
  dockerBuild : Step → Option String
  toolInstall : Step → Option String
  archive : Step → Option String
  junitReport : Step → Option String
  tarArchive : Step → Option String
  sonarCheck : Step → Option String

inductive RunStepResult where
  | ok
  | execError (e : String)
  | unknownType (t : String)
deriving DecidableEq

def execOutcome : Option String → RunStepResult
  | none => .ok
  | some e => .execError e

def stepTypeUnknownMsg (t : String) : String :=
  "step type: " ++ t ++ " does not match any known type"

/-- step.go `runStep`: dispatch on the step-type string. The eight literals
are exactly the cases of the Go switch (note the `tools` case). -/
def runStep (ex : Executors) (s : Step) : RunStepResult :=
  match s.stepType with
  | "shell" => execOutcome (ex.shell s)
  | "git" => execOutcome (ex.git s)
  | "docker_build" => execOutcome (ex.dockerBuild s)
  | "tools" => execOutcome (ex.toolInstall s)
  | "archive" => execOutcome (ex.archive s)
  | "junit_report" => execOutcome (ex.junitReport s)
  | "tar_archive" => execOutcome (ex.tarArchive s)
  | "sonar_check" => execOutcome (ex.sonarCheck s)
  | t => .unknownType t

/-- The step-type strings of the Go switch. -/
def knownStepTypes : List String :=
  ["shell", "git", "docker_build", "tools", "archive", "junit_report",
   "tar_archive", "sonar_check"]

/-- Error view of `runStep`, as the Go caller observes it. -/
def runStepError (ex : Executors) (s : Step) : Option String :=
  match runStep ex s with
  | .ok => none
  | .execError e => some e
  | .unknownType t => some (stepTypeUnknownMsg t)

/-- Observable outcome of the `RunSteps` loop: the final `hasFailed` and
`respErr` variables, instrumented with the per-step dispatch flags and the
errors of the attempted steps that failed, in order. -/
structure RunOutcome where
  hasFailed : Bool
  respErr : Option String
  dispatchedFlags : List Bool
  failures : List String
deriving DecidableEq

/-- step.go `RunSteps` loop body, with the loop state (`hasFailed`,
`respErr`) made explicit. A step is skipped when `hasFailed && !Onfailure`;
otherwise it is attempted and a failure overwrites `respErr`. -/
def runStepsCore (ex : Executors) (hasFailed : Bool) (respErr : Option String) :
    List Step → RunOutcome
  | [] => ⟨hasFailed, respErr, [], []⟩
  | s :: rest =>
    if hasFailed && !s.onfailure then
      let r := runStepsCore ex hasFailed respErr rest
      ⟨r.hasFailed, r.respErr, false :: r.dispatchedFlags, r.failures⟩
    else
      match runStepError ex s with
      | none =>
        let r := runStepsCore ex hasFailed respErr rest
        ⟨r.hasFailed, r.respErr, true :: r.dispatchedFlags, r.failures⟩
      | some e =>
        let r := runStepsCore ex true (some e) rest
        ⟨r.hasFailed, r.respErr, true :: r.dispatchedFlags, e :: r.failures⟩

/-- step.go `RunSteps`: returns the final `respErr`. -/
def RunSteps (ex : Executors) (steps : List Step) : Option String :=
  (runStepsCore ex false none steps).respErr

/-- Sample executor oracle where every step succeeds. -/
def execAllOk : Executors :=
  ⟨fun _ => none, fun _ => none, fun _ => none, fun _ => none,
   fun _ => none, fun _ => none, fun _ => none, fun _ => none⟩

/-- Sample executor oracle where shell steps fail with error `E1`. -/
def execShellFails : Executors :=
  ⟨fun _ => some "E1", fun _ => none, fun _ => none, fun _ => none,
   fun _ => none, fun _ => none, fun _ => none, fun _ => none⟩

/-! ### Step-runner lemmas -/

lemma lastOption_cons {α : Type} (a : α) (l : List α) :
    (a :: l).getLast? = some (l.getLast?.getD a) := by
  induction l generalizing a with
  | nil => rfl
  | cons b t ih => rw [List.getLast?_cons_cons, ih b]; rfl

lemma runStepsCore_append (ex : Executors) (b : Bool) (r : Option String)
    (xs ys : List Step) :
    runStepsCore ex b r (xs ++ ys) =
      ⟨(runStepsCore ex (runStepsCore ex b r xs).hasFailed
          (runStepsCore ex b r xs).respErr ys).hasFailed,
       (runStepsCore ex (runStepsCore ex b r xs).hasFailed
          (runStepsCore ex b r xs).respErr ys).respErr,
       (runStepsCore ex b r xs).dispatchedFlags ++
         (runStepsCore ex (runStepsCore ex b r xs).hasFailed
           (runStepsCore ex b r xs).respErr ys).dispatchedFlags,
       (runStepsCore ex b r xs).failures ++
         (runStepsCore ex (runStepsCore ex b r xs).hasFailed
           (runStepsCore ex b r xs).respErr ys).failures⟩ := by
  induction xs generalizing b r with
  | nil => simp [runStepsCore]
  | cons s rest ih =>
    simp only [List.cons_append, runStepsCore]
    by_cases h : (b && !s.onfailure) = true
    · simp [h, ih]
    · simp only [h, if_false, Bool.false_eq_true]
      cases hE : runStepError ex s with
      | none => simp [ih]
      | some e => simp [ih]

lemma runStepsCore_flags_length (ex : Executors) (b : Bool) (r : Option String)
    (steps : List Step) :
    (runStepsCore ex b r steps).dispatchedFlags.length = steps.length := by
  induction steps generalizing b r with
  | nil => rfl
  | cons s rest ih =>
    simp only [runStepsCore]
    by_cases h : (b && !s.onfailure) = true
    · simp [h, ih]
    · simp only [h, if_false, Bool.false_eq_true]
      cases hE : runStepError ex s <;> simp [ih]

lemma runStepsCore_hasFailed (ex : Executors) (b : Bool) (r : Option String)
    (steps : List Step) :
    (runStepsCore ex b r steps).hasFailed =
      (b || !(runStepsCore ex b r steps).failures.isEmpty) := by
  induction steps generalizing b r with
  | nil => simp [runStepsCore]
  | cons s rest ih =>
    simp only [runStepsCore]
    by_cases h : (b && !s.onfailure) = true
    · have hb : b = true := by cases b <;> simp_all
      have hon : s.onfailure = false := by cases hon2 : s.onfailure <;> simp_all
      subst hb
      simp [hon, ih]
    · simp only [h, if_false, Bool.false_eq_true]
      cases hE : runStepError ex s with
      | none => simp [ih]
      | some e => simp [ih]

lemma runStepsCore_respErr (ex : Executors) (b : Bool) (r : Option String)
    (steps : List Step) :
    (runStepsCore ex b r steps).respErr =
      ((runStepsCore ex b r steps).failures.getLast?).or r := by
  induction steps generalizing b r with
  | nil => cases r <;> rfl
  | cons s rest ih =>
    simp only [runStepsCore]
    by_cases h : (b && !s.onfailure) = true
    · simp [h, ih]
    · simp only [h, if_false, Bool.false_eq_true]
      cases hE : runStepError ex s with
      | none => simp [ih]
      | some e =>
        simp only [ih]
        rw [lastOption_cons]
        cases hl : (runStepsCore ex true (some e) rest).failures.getLast? <;> rfl

/-- Head dispatch flag of the step following a prefix: it is dispatched
exactly when the prior state allows it (`hasFailed && !onfailure` skips). -/
lemma flags_append_head (ex : Executors) (pre : List Step) (s : Step)
    (post : List Step) :
    (runStepsCore ex false none (pre ++ s :: post)).dispatchedFlags[pre.length]? =
      some (!((runStepsCore ex false none pre).hasFailed && !s.onfailure)) := by
  rw [runStepsCore_append]
  have hlen : (runStepsCore ex false none pre).dispatchedFlags.length = pre.length :=
    runStepsCore_flags_length ex false none pre
  rw [List.getElem?_append_right (by rw [hlen])]
  rw [hlen]
  simp only [Nat.sub_self]
  simp only [runStepsCore]
  by_cases h : ((runStepsCore ex false none pre).hasFailed && !s.onfailure) = true
  · simp [h]
  · simp only [h, if_false, Bool.false_eq_true]
    cases hE : runStepError ex s with
    | none => simp [h]
    | some e =>
      simp only []
      rw [Bool.not_eq_true] at h
      simp [h]

/-! ### Output redaction loop (step.go `handleCmdOutput`) -/

/-- One result of `reader.ReadBytes` on the step output pipe: a full line,
end of stream, or another read error (which terminates the loop). -/
inductive ReadEvent where
  | line (s : String)
  | eof
  | readErr (msg : String)
deriving DecidableEq

/-- Observable effect of `handleCmdOutput`: the masked lines printed to the
live sink, and the byte payloads handed to `util.WriteFile` for the log. -/
structure CmdOutputEffect where
  printed : List String
  logged : List String
deriving DecidableEq

/-- step.go `handleCmdOutput`: each line is printed through `maskSecretEnvs`;
when persistence is requested the raw `lineBytes` (not the masked string) is
written to the log file. `eof` and read errors both break the loop. -/
def handleCmdOutput : List ReadEvent → Bool → List String → CmdOutputEffect
  | [], _, _ => ⟨[], []⟩
  | .eof :: _, _, _ => ⟨[], []⟩
  | .readErr _ :: _, _, _ => ⟨[], []⟩
  | .line l :: rest, needPersistentLog, secretEnvs =>
    let r := handleCmdOutput rest needPersistentLog secretEnvs
    ⟨maskSecretEnvs l secretEnvs :: r.printed,
     (if needPersistentLog then [l] else []) ++ r.logged⟩

/-! ### Claims about the step engine -/

/-- C1 (counterexample). The claim says the line appended to the log file is
the SecretMasker-masked line, identical to the live-sink line. On the code,
the log file receives the raw `lineBytes`: with secret entry
`KEY=SECRETVAL`, the persisted line still contains `SECRETVAL` and differs
from the masked line printed to the live sink. -/
theorem c1_counterexample :
    (handleCmdOutput [ReadEvent.line "export KEY=SECRETVAL\n"] true
        ["KEY=SECRETVAL"]).logged = ["export KEY=SECRETVAL\n"]
    ∧ (handleCmdOutput [ReadEvent.line "export KEY=SECRETVAL\n"] true
        ["KEY=SECRETVAL"]).printed = ["export KEY=********\n"]
    ∧ ("export KEY=SECRETVAL\n" : String) ≠ "export KEY=********\n" := by
  refine ⟨rfl, rfl, by decide⟩

/-- C1 (amended). For a stream of complete lines, the live sink receives
exactly the `maskSecretEnvs`-masked lines, while the log file — when
persistence is requested — receives the raw, unmasked lines as read. -/
theorem c1_amended_log_line_unmasked (lines : List String) (persist : Bool)
    (secretEnvs : List String) :
    (handleCmdOutput (lines.map ReadEvent.line) persist secretEnvs).printed =
        lines.map (fun l => maskSecretEnvs l secretEnvs)
    ∧ (handleCmdOutput (lines.map ReadEvent.line) persist secretEnvs).logged =
        (if persist then lines else []) := by
  induction lines with
  | nil => cases persist <;> exact ⟨rfl, rfl⟩
  | cons l rest ih =>
    refine ⟨?_, ?_⟩
    · simp only [List.map_cons, handleCmdOutput]
      rw [ih.1]
    · simp only [List.map_cons, handleCmdOutput]
      rw [ih.2]
      cases persist <;> simp

/-- C2 (counterexample). The claim's enumeration contains `tool_install`,
but the Go switch case for the tool-install executor is the literal
`tools`: a step typed `tool_install` hits the unknown-type error while a
step typed `tools` (outside the claim's enumeration) is dispatched. -/
theorem c2_counterexample :
    runStep execAllOk ⟨"tool_install", 0, false⟩ =
        RunStepResult.unknownType "tool_install"
    ∧ runStep execAllOk ⟨"tools", 0, false⟩ = RunStepResult.ok
    ∧ RunSteps execAllOk [⟨"tool_install", 0, false⟩] =
        some "step type: tool_install does not match any known type" :=
  ⟨rfl, rfl, rfl⟩

/-- C2 (amended). For every step whose type is one of the eight switch cases
`shell, git, docker_build, tools, archive, junit_report, tar_archive,
sonar_check`, `runStep` dispatches it to the matching executor; for a type
outside that enumeration it returns the StepTypeUnknown error, which
`RunSteps` records as that step's failure while continuing with the rest of
the list. -/
theorem c2_amended_dispatch (ex : Executors) (s : Step) :
    (s.stepType = "shell" → runStep ex s = execOutcome (ex.shell s))
    ∧ (s.stepType = "git" → runStep ex s = execOutcome (ex.git s))
    ∧ (s.stepType = "docker_build" → runStep ex s = execOutcome (ex.dockerBuild s))
    ∧ (s.stepType = "tools" → runStep ex s = execOutcome (ex.toolInstall s))
    ∧ (s.stepType = "archive" → runStep ex s = execOutcome (ex.archive s))
    ∧ (s.stepType = "junit_report" → runStep ex s = execOutcome (ex.junitReport s))
    ∧ (s.stepType = "tar_archive" → runStep ex s = execOutcome (ex.tarArchive s))
    ∧ (s.stepType = "sonar_check" → runStep ex s = execOutcome (ex.sonarCheck s))
    ∧ (s.stepType ∉ knownStepTypes →
        runStep ex s = RunStepResult.unknownType s.stepType
        ∧ ∀ rest, runStepsCore ex false none (s :: rest) =
            ⟨(runStepsCore ex true (some (stepTypeUnknownMsg s.stepType)) rest).hasFailed,
             (runStepsCore ex true (some (stepTypeUnknownMsg s.stepType)) rest).respErr,
             true :: (runStepsCore ex true
               (some (stepTypeUnknownMsg s.stepType)) rest).dispatchedFlags,
             stepTypeUnknownMsg s.stepType ::
               (runStepsCore ex true
                 (some (stepTypeUnknownMsg s.stepType)) rest).failures⟩) := by
  refine ⟨?_, ?_, ?_, ?_, ?_, ?_, ?_, ?_, ?_⟩
  · intro h; unfold runStep; rw [h]; rfl
  · intro h; unfold runStep; rw [h]; rfl
  · intro h; unfold runStep; rw [h]; rfl
  · intro h; unfold runStep; rw [h]; rfl
  · intro h; unfold runStep; rw [h]; rfl
  · intro h; unfold runStep; rw [h]; rfl
  · intro h; unfold runStep; rw [h]; rfl
  · intro h; unfold runStep; rw [h]; rfl
  · intro h
    have h8 : runStep ex s = RunStepResult.unknownType s.stepType := by
      unfold runStep
      split <;> simp_all [knownStepTypes]
    refine ⟨h8, ?_⟩
    have hse : runStepError ex s = some (stepTypeUnknownMsg s.stepType) := by
      unfold runStepError; rw [h8]
    intro rest
    simp [runStepsCore, hse]

/-- C2 (witness). A concrete `shell` step is dispatched to the shell
executor and succeeds under the all-ok oracle. -/
theorem c2_witness : runStep execAllOk ⟨"shell", 0, false⟩ = RunStepResult.ok := by
  have h := (c2_amended_dispatch execAllOk ⟨"shell", 0, false⟩).1 rfl
  simpa using h

/-- C4 (confirmed). After an earlier failure, a later step is dispatched
exactly when its `Onfailure` flag is set; a step with `Onfailure = true` is
dispatched regardless of prior failures. -/
theorem c4_skip_policy (ex : Executors) (pre post : List Step) (s : Step) :
    ((runStepsCore ex false none pre).failures ≠ [] →
      (runStepsCore ex false none (pre ++ s :: post)).dispatchedFlags[pre.length]? =
        some s.onfailure)
    ∧ (s.onfailure = true →
      (runStepsCore ex false none (pre ++ s :: post)).dispatchedFlags[pre.length]? =
        some true) := by
  constructor
  · intro hfail
    have hf : (runStepsCore ex false none pre).hasFailed = true := by
      rw [runStepsCore_hasFailed]
      simp [List.isEmpty_iff, hfail]
    rw [flags_append_head, hf]
    cases s.onfailure <;> rfl
  · intro hon
    rw [flags_append_head, hon]
    simp

/-- C4 (witness). With a failing shell step first: a following
`onfailure = false` step is skipped and a following `onfailure = true` step
is dispatched. -/
theorem c4_witness :
    (runStepsCore execShellFails false none
        [⟨"shell", 0, false⟩, ⟨"shell", 0, false⟩]).dispatchedFlags[1]? = some false
    ∧ (runStepsCore execShellFails false none
        [⟨"shell", 0, false⟩, ⟨"shell", 0, true⟩]).dispatchedFlags[1]? = some true := by
  constructor
  · exact (c4_skip_policy execShellFails [⟨"shell", 0, false⟩] []
      ⟨"shell", 0, false⟩).1 (by decide)
  · exact (c4_skip_policy execShellFails [⟨"shell", 0, false⟩] []
      ⟨"shell", 0, true⟩).2 rfl

/-- C5 (confirmed). `RunSteps` returns the error of the most recent failing
attempted step — `none` exactly when no attempted step failed; later
successes never clear it and each new failure overwrites the previous one. -/
theorem c5_last_error (ex : Executors) (steps : List Step) :
    RunSteps ex steps = (runStepsCore ex false none steps).failures.getLast?
    ∧ (RunSteps ex steps = none ↔ (runStepsCore ex false none steps).failures = []) := by
  have h := runStepsCore_respErr ex false none steps
  have h1 : RunSteps ex steps = (runStepsCore ex false none steps).failures.getLast? := by
    rw [RunSteps, h]
    cases (runStepsCore ex false none steps).failures.getLast? <;> rfl
  refine ⟨h1, ?_⟩
  rw [h1, List.getLast?_eq_none_iff]

/-- C10 (confirmed). `RunSteps` on the empty step list dispatches nothing
and returns `none`. -/
theorem c10_empty_steps (ex : Executors) :
    RunSteps ex [] = none
    ∧ (runStepsCore ex false none []).dispatchedFlags = [] :=
  ⟨rfl, rfl⟩

/-- C3 (counterexample). The claim asserts the `KEY=` prefix text is never
altered while every occurrence of VALUE is masked. With entry
`SECRETX=SECRET` the value `SECRET` occurs inside the key `SECRETX`, so the
key text is rewritten too: the claim's two requirements are incompatible at
this input, and the code masks the occurrence inside the key. -/
theorem c3_counterexample :
    maskSecretEnvs "export SECRETX=SECRET\n" ["SECRETX=SECRET"] =
        "export ********X=********\n"
    ∧ maskSecretEnvs "export SECRETX=SECRET\n" ["SECRETX=SECRET"] ≠
        "export SECRETX=********\n" :=
  ⟨by decide, by decide⟩

/-- C3 (amended). An entry that splits on `=` into exactly two non-empty
parts KEY and VALUE causes exactly a global literal replacement of VALUE by
`********` (so text equal to VALUE is masked wherever it occurs, including
inside the KEY text); any other entry — such as `A=B=C` or entries with an
empty key or value — causes no change at all. -/
theorem c3_amended_mask (msg e : String) (es : List String) :
    (∀ k v, goSplit e '=' = [k, v] → k ≠ "" → v ≠ "" →
      maskSecretEnvs msg (e :: es) =
        maskSecretEnvs (goReplace msg v secretEnvMask) es)
    ∧ ((¬ ∃ k v, goSplit e '=' = [k, v] ∧ k ≠ "" ∧ v ≠ "") →
      maskSecretEnvs msg (e :: es) = maskSecretEnvs msg es) := by
  constructor
  · intro k v hs hk hv
    have he : e ≠ "" := by
      intro hc
      subst hc
      simp [goSplit, splitOnChar] at hs
    simp only [maskSecretEnvs, List.foldl_cons]
    congr 1
    simp [he, hs, hk, hv, goJoin]
  · intro hno
    simp only [maskSecretEnvs, List.foldl_cons]
    congr 1
    by_cases he : e = ""
    · simp [he]
    · simp only [if_neg he]
      by_cases hlen : (goSplit e '=').length = 2
      · obtain ⟨k, v, hkv⟩ := List.length_eq_two.mp hlen
        have hz : k = "" ∨ v = "" := by
          by_contra hc
          push_neg at hc
          exact hno ⟨k, v, hkv, hc.1, hc.2⟩
        simp [hkv]
        intro h1 h2
        exact absurd hz (by simp [h1, h2])
      · simp [hlen]

/-- C3 (witness). The spec's own example: a well-formed entry masks its
value in matching text. -/
theorem c3_witness :
    maskSecretEnvs "export KEY=SECRETVAL\n" ["KEY=SECRETVAL"] =
      "export KEY=********\n" := by
  have h := (c3_amended_mask "export KEY=SECRETVAL\n" "KEY=SECRETVAL" []).1
    "KEY" "SECRETVAL" (by decide) (by decide) (by decide)
  rw [h]
  decide

/-! ### Renderset value-source synchronization (renderset.go) -/

/-- Modelled from the spec: the `setting` package constants are not under
the given sources; the origin enum needs three distinct tags
(default/git repository, variable set, other/local). Only identity and
distinctness of the tags matter to the code under study. -/
def SourceFromGitRepo : String := "gitRepo"

/-- Modelled from the spec: origin tag for a variable-set source. -/
def SourceFromVariableSet : String := "variable_set"

/-- Modelled from the spec: storage kind tag for an object-storage-backed
("other/local") repository. -/
def SourceFromOther : String := "other"

/-- Repository coordinates carried by a git-backed source detail. -/
structure GitRepoConfig where
  codehostID : Nat
  namespaceName : String
  owner : String
  repo : String
  branch : String
deriving DecidableEq

/-- Result of `service.UnMarshalSourceDetail`: a possibly-missing repo
config plus the load path. -/
structure SourceDetail where
  gitRepoConfig : Option GitRepoConfig
  loadPath : String
deriving DecidableEq

/-- `templatemodels.CustomYaml`, restricted to the fields renderset.go
reads. `sourceDetail` is the opaque `interface{}` payload, represented by a
handle that the unmarshal oracle interprets. -/
structure CustomYaml where
  source : String
  autoSync : Bool
  sourceID : String
  sourceDetail : Nat
deriving DecidableEq

/-- Argument record of `fsservice.DownloadFileFromSource`. -/
structure DownloadFromSourceArgs where
  codehostID : Nat
  owner : String
  namespaceName : String
  repo : String
  path : String
  branch : String
  repoLink : String
deriving DecidableEq

/-- Oracles for the external collaborators of the sync routines: the
variable-set collection lookup, source-detail unmarshalling, the file
download service, and the structural yaml comparison `yamlutil.Equal`. -/
structure SyncEnv where
  findVariableSet : String → Except String String
  unmarshalSourceDetail : Nat → Except String SourceDetail
  downloadFromSource : DownloadFromSourceArgs → Except String String
  yamlEqual : String → String → Except String Bool

/-- renderset.go `fromGitRepo`: empty source or the git-repo tag. -/
def fromGitRepo (source : String) : Bool :=
  if source = "" then true
  else if source = SourceFromGitRepo then true
  else false

/-- renderset.go `syncYamlFromVariableSet`. -/
def syncYamlFromVariableSet (env : SyncEnv) (yamlData : CustomYaml)
    (curValue : String) : Bool × String × Option String :=
  if yamlData.source ≠ SourceFromVariableSet then (false, "", none)
  else
    match env.findVariableSet yamlData.sourceID with
    | .error e => (false, "", some e)
    | .ok stored =>
      match env.yamlEqual stored curValue with
      | .error e => (false, "", some e)
      | .ok true => (false, "", none)
      | .ok false => (true, stored, none)

/-- renderset.go `syncYamlFromGit`. A missing git repo config is a warning,
not an error; a download or comparison failure is returned. -/
def syncYamlFromGit (env : SyncEnv) (yamlData : CustomYaml)
    (curValue : String) : Bool × String × Option String :=
  if !fromGitRepo yamlData.source then (false, "", none)
  else
    match env.unmarshalSourceDetail yamlData.sourceDetail with
    | .error e => (false, "", some e)
    | .ok sourceDetail =>
      match sourceDetail.gitRepoConfig with
      | none => (false, "", none)
      | some repoConfig =>
        match env.downloadFromSource
            ⟨repoConfig.codehostID, repoConfig.owner, repoConfig.namespaceName,
             repoConfig.repo, sourceDetail.loadPath, repoConfig.branch, ""⟩ with
        | .error e => (false, "", some e)
        | .ok valuesYAML =>
          match env.yamlEqual valuesYAML curValue with
          | .error e => (false, "", some e)
          | .ok true => (false, "", none)
          | .ok false => (true, valuesYAML, none)

/-- renderset.go `SyncYamlFromSource`: nil or non-autosync sources are
untouched; variable-set sources go through the variable-set lookup, all
other sources through the git path. -/
def SyncYamlFromSource (env : SyncEnv) (yamlData : Option CustomYaml)
    (curValue : String) : Bool × String × Option String :=
  match yamlData with
  | none => (false, "", none)
  | some y =>
    if !y.autoSync then (false, "", none)
    else if y.source = SourceFromVariableSet then
      syncYamlFromVariableSet env y curValue
    else syncYamlFromGit env y curValue

/-- C8 (confirmed). For an autosync variable-set source: a lookup failure
returns `(false, "", error)`; structural equality or a comparison failure
returns `(false, "", error-or-none)`; a structurally different stored value
returns `(true, stored, none)`. -/
theorem c8_variable_set_sync (env : SyncEnv) (y : CustomYaml) (cur : String)
    (ha : y.autoSync = true) (hs : y.source = SourceFromVariableSet) :
    (∀ e, env.findVariableSet y.sourceID = .error e →
      SyncYamlFromSource env (some y) cur = (false, "", some e))
    ∧ (∀ stored, env.findVariableSet y.sourceID = .ok stored →
        (env.yamlEqual stored cur = .ok true →
          SyncYamlFromSource env (some y) cur = (false, "", none))
        ∧ (∀ e, env.yamlEqual stored cur = .error e →
          SyncYamlFromSource env (some y) cur = (false, "", some e))
        ∧ (env.yamlEqual stored cur = .ok false →
          SyncYamlFromSource env (some y) cur = (true, stored, none))) := by
  constructor
  · intro e he
    simp [SyncYamlFromSource, ha, hs, syncYamlFromVariableSet, he]
  · intro stored hst
    refine ⟨?_, ?_, ?_⟩
    · intro heq
      simp [SyncYamlFromSource, ha, hs, syncYamlFromVariableSet, hst, heq]
    · intro e heq
      simp [SyncYamlFromSource, ha, hs, syncYamlFromVariableSet, hst, heq]
    · intro heq
      simp [SyncYamlFromSource, ha, hs, syncYamlFromVariableSet, hst, heq]

/-- Sample sync oracle: the variable set stores `a: 1`, comparison says the
values are structurally equal. -/
def syncEnvEqual : SyncEnv :=
  ⟨fun _ => .ok "a: 1", fun _ => .ok ⟨none, ""⟩, fun _ => .ok "",
   fun _ _ => .ok true⟩

/-- C8 (witness). A variable-set source whose stored value is structurally
equal to the current value reports no change. -/
theorem c8_witness :
    SyncYamlFromSource syncEnvEqual
        (some ⟨SourceFromVariableSet, true, "id1", 0⟩) "a:  1" =
      (false, "", none) :=
  ((c8_variable_set_sync syncEnvEqual
      ⟨SourceFromVariableSet, true, "id1", 0⟩ "a:  1" rfl rfl).2
    "a: 1" rfl).1 rfl

/-- C9 (confirmed). The sync result triple is coherent: no change means an
empty replacement value, and a reported change means a `none` error and a
replacement value that is exactly the stored variable-set value or the
downloaded file content. -/
theorem c9_sync_invariant (env : SyncEnv) (yamlData : Option CustomYaml)
    (cur : String) :
    ((SyncYamlFromSource env yamlData cur).1 = false →
      (SyncYamlFromSource env yamlData cur).2.1 = "")
    ∧ ((SyncYamlFromSource env yamlData cur).1 = true →
      (SyncYamlFromSource env yamlData cur).2.2 = none
      ∧ ((∃ y stored, yamlData = some y
            ∧ env.findVariableSet y.sourceID = .ok stored
            ∧ (SyncYamlFromSource env yamlData cur).2.1 = stored)
        ∨ (∃ y sourceDetail repoConfig content, yamlData = some y
            ∧ env.unmarshalSourceDetail y.sourceDetail = .ok sourceDetail
            ∧ sourceDetail.gitRepoConfig = some repoConfig
            ∧ env.downloadFromSource
                ⟨repoConfig.codehostID, repoConfig.owner,
                 repoConfig.namespaceName, repoConfig.repo,
                 sourceDetail.loadPath, repoConfig.branch, ""⟩ = .ok content
            ∧ (SyncYamlFromSource env yamlData cur).2.1 = content))) := by
  cases yamlData with
  | none => exact ⟨fun _ => rfl, by simp [SyncYamlFromSource]⟩
  | some y =>
    by_cases ha : y.autoSync = true
    · by_cases hs : y.source = SourceFromVariableSet
      · cases hf : env.findVariableSet y.sourceID with
        | error e =>
          have hres : SyncYamlFromSource env (some y) cur = (false, "", some e) := by
            simp [SyncYamlFromSource, ha, hs, syncYamlFromVariableSet, hf]
          rw [hres]
          exact ⟨fun _ => rfl, by simp⟩
        | ok stored =>
          cases he : env.yamlEqual stored cur with
          | error e =>
            have hres : SyncYamlFromSource env (some y) cur = (false, "", some e) := by
              simp [SyncYamlFromSource, ha, hs, syncYamlFromVariableSet, hf, he]
            rw [hres]
            exact ⟨fun _ => rfl, by simp⟩
          | ok b =>
            cases b with
            | true =>
              have hres : SyncYamlFromSource env (some y) cur = (false, "", none) := by
                simp [SyncYamlFromSource, ha, hs, syncYamlFromVariableSet, hf, he]
              rw [hres]
              exact ⟨fun _ => rfl, by simp⟩
            | false =>
              have hres : SyncYamlFromSource env (some y) cur = (true, stored, none) := by
                simp [SyncYamlFromSource, ha, hs, syncYamlFromVariableSet, hf, he]
              rw [hres]
              exact ⟨by simp, fun _ => ⟨rfl, Or.inl ⟨y, stored, rfl, hf, rfl⟩⟩⟩
      · by_cases hg : fromGitRepo y.source = true
        · cases hu : env.unmarshalSourceDetail y.sourceDetail with
          | error e =>
            have hres : SyncYamlFromSource env (some y) cur = (false, "", some e) := by
              simp [SyncYamlFromSource, ha, hs, syncYamlFromGit, hg, hu]
            rw [hres]
            exact ⟨fun _ => rfl, by simp⟩
          | ok sourceDetail =>
            cases hc : sourceDetail.gitRepoConfig with
            | none =>
              have hres : SyncYamlFromSource env (some y) cur = (false, "", none) := by
                simp [SyncYamlFromSource, ha, hs, syncYamlFromGit, hg, hu, hc]
              rw [hres]
              exact ⟨fun _ => rfl, by simp⟩
            | some repoConfig =>
              cases hd : env.downloadFromSource
                  ⟨repoConfig.codehostID, repoConfig.owner,
                   repoConfig.namespaceName, repoConfig.repo,
                   sourceDetail.loadPath, repoConfig.branch, ""⟩ with
              | error e =>
                have hres : SyncYamlFromSource env (some y) cur = (false, "", some e) := by
                  simp [SyncYamlFromSource, ha, hs, syncYamlFromGit, hg, hu, hc, hd]
                rw [hres]
                exact ⟨fun _ => rfl, by simp⟩
              | ok content =>
                cases he : env.yamlEqual content cur with
                | error e =>
                  have hres : SyncYamlFromSource env (some y) cur = (false, "", some e) := by
                    simp [SyncYamlFromSource, ha, hs, syncYamlFromGit, hg, hu, hc, hd, he]
                  rw [hres]
                  exact ⟨fun _ => rfl, by simp⟩
                | ok b =>
                  cases b with
                  | true =>
                    have hres : SyncYamlFromSource env (some y) cur = (false, "", none) := by
                      simp [SyncYamlFromSource, ha, hs, syncYamlFromGit, hg, hu, hc, hd, he]
                    rw [hres]
                    exact ⟨fun _ => rfl, by simp⟩
                  | false =>
                    have hres : SyncYamlFromSource env (some y) cur = (true, content, none) := by
                      simp [SyncYamlFromSource, ha, hs, syncYamlFromGit, hg, hu, hc, hd, he]
                    rw [hres]
                    exact ⟨by simp, fun _ =>
                      ⟨rfl, Or.inr ⟨y, sourceDetail, repoConfig, content,
                        rfl, hu, hc, hd, rfl⟩⟩⟩
        · have hg2 : fromGitRepo y.source = false := by simp_all
          have hres : SyncYamlFromSource env (some y) cur = (false, "", none) := by
            simp [SyncYamlFromSource, ha, hs, syncYamlFromGit, hg2]
          rw [hres]
          exact ⟨fun _ => rfl, by simp⟩
    · have ha2 : y.autoSync = false := by simp_all
      simp [SyncYamlFromSource, ha2]

/-- C9 (witness). Concrete coherent result: the equal-comparison oracle
yields no change and an empty replacement value. -/
theorem c9_witness :
    (SyncYamlFromSource syncEnvEqual
        (some ⟨SourceFromVariableSet, true, "id1", 0⟩) "a: 1").2.1 = "" :=
  (c9_sync_invariant syncEnvEqual
      (some ⟨SourceFromVariableSet, true, "id1", 0⟩) "a: 1").1 rfl

/-! ### Concurrent fetch-merge (renderset.go `GetMergedYamlContent`)

The goroutine-per-path fan-out writes results into an index-keyed map and
appends failure messages to a mutex-protected list in completion order. The
embedding sequentialises the units along an arbitrary completion order
`order`, a permutation of the path indices; the map becomes a function
`Nat → Option String` updated at distinct keys. -/

/-- Codehost detail, restricted to the `Type` field renderset.go reads. -/
structure CodeHost where
  hostType : String
deriving DecidableEq

/-- renderset.go `YamlContentRequestArg`. -/
structure YamlContentRequestArg where
  codehostID : Nat
  owner : String
  repo : String
  namespaceName : String
  branch : String
  repoLink : String
  valuesPaths : String
deriving DecidableEq

/-- The error values `GetMergedYamlContent` can return: the
`ErrListRepoDir`-wrapped codehost/git errors, the multierror aggregating the
per-path failures, and the wrapped merge failure. -/
inductive MergeErr where
  | listRepoDir (msg : String)
  | aggregated (msgs : List String)
  | mergeFailed (msg : String)
deriving DecidableEq

/-- Oracles for the external collaborators of `GetMergedYamlContent`:
codehost lookup, the one-time `RunGitCmds` sync, `config.S3StoragePath`,
Go `path.Join`, `os.ReadFile`, the download service and `yamlutil.Merge`. -/
structure FetchEnv where
  getCodeHost : Nat → Except String CodeHost
  runGitCmds : Option String
  s3StoragePath : String
  pathJoin : String → String → String
  readFile : String → Except String String
  downloadFromSource : DownloadFromSourceArgs → Except String String
  mergeYaml : List String → Except String String

/-- One fetch unit: a local read under `S3StoragePath/repo/path` for an
"other"-type repo, a download otherwise; failures are wrapped with the
failing path exactly as the two `errors.Wrapf` calls do. -/
def fetchUnit (env : FetchEnv) (arg : YamlContentRequestArg) (isOther : Bool)
    (p : String) : Except String String :=
  if isOther then
    let base := env.pathJoin env.s3StoragePath arg.repo
    let relativePath := env.pathJoin base p
    match env.readFile relativePath with
    | .error e =>
      .error ("failed to read file from git repo, relative path " ++
        relativePath ++ ": " ++ e)
    | .ok c => .ok c
  else
    match env.downloadFromSource
        ⟨arg.codehostID, arg.owner, arg.namespaceName, arg.repo, p,
         arg.branch, arg.repoLink⟩ with
    | .error e => .error ("failed to download file from git, path " ++ p ++ ": " ++ e)
    | .ok c => .ok c

/-- Effect of one completed unit on the shared state (content map, error
list). -/
def unitStep (env : FetchEnv) (arg : YamlContentRequestArg) (isOther : Bool)
    (paths : List String) (acc : (Nat → Option String) × List String)
    (i : Nat) : (Nat → Option String) × List String :=
  match paths[i]? with
  | none => acc
  | some p =>
    match fetchUnit env arg isOther p with
    | .ok c => (fun j => if j = i then some c else acc.1 j, acc.2)
    | .error m => (acc.1, acc.2 ++ [m])

/-- Shared state after all units completed, in completion order `order`. -/
def runUnits (env : FetchEnv) (arg : YamlContentRequestArg) (isOther : Bool)
    (paths : List String) (order : List Nat) :
    (Nat → Option String) × List String :=
  order.foldl (unitStep env arg isOther paths) (fun _ => none, [])

/-- The error message unit `i` contributes, if it fails. -/
def unitErr (env : FetchEnv) (arg : YamlContentRequestArg) (isOther : Bool)
    (paths : List String) (i : Nat) : Option String :=
  match paths[i]? with
  | none => none
  | some p =>
    match fetchUnit env arg isOther p with
    | .ok _ => none
    | .error m => some m

/-- The content unit `i` stores, if it succeeds. -/
def unitContent (env : FetchEnv) (arg : YamlContentRequestArg) (isOther : Bool)
    (paths : List String) (i : Nat) : Option String :=
  match paths[i]? with
  | none => none
  | some p => (fetchUnit env arg isOther p).toOption

/-- Barrier join and merge: first the aggregated error check
(`errorList.ErrorOrNil()`), then index-ordered reconstruction and
`yamlutil.Merge`. -/
def fetchAndMerge (env : FetchEnv) (arg : YamlContentRequestArg)
    (isOther : Bool) (paths : List String) (order : List Nat) :
    String × Option MergeErr :=
  let r := runUnits env arg isOther paths order
  if r.2.isEmpty then
    match env.mergeYaml ((List.range paths.length).filterMap r.1) with
    | .error e => ("", some (.mergeFailed ("failed to merge files: " ++ e)))
    | .ok m => (m, none)
  else ("", some (.aggregated r.2))

/-- renderset.go `GetMergedYamlContent`: codehost lookup, one-time git sync
for "other"-type repos, then fan-out/fan-in and merge. -/
def GetMergedYamlContent (env : FetchEnv) (arg : YamlContentRequestArg)
    (paths : List String) (order : List Nat) : String × Option MergeErr :=
  match env.getCodeHost arg.codehostID with
  | .error e => ("", some (.listRepoDir e))
  | .ok detail =>
    if detail.hostType == SourceFromOther then
      match env.runGitCmds with
      | some e => ("", some (.listRepoDir e))
      | none => fetchAndMerge env arg true paths order
    else fetchAndMerge env arg false paths order

/-! ### Fetch-merge lemmas -/

lemma runUnits_foldl_snd (env : FetchEnv) (arg : YamlContentRequestArg)
    (isOther : Bool) (paths : List String) :
    ∀ (order : List Nat) (f : Nat → Option String) (es : List String),
      (order.foldl (unitStep env arg isOther paths) (f, es)).2 =
        es ++ order.filterMap (unitErr env arg isOther paths) := by
  intro order
  induction order with
  | nil => simp
  | cons i rest ih =>
    intro f es
    rw [List.foldl_cons, List.filterMap_cons]
    cases hp : paths[i]? with
    | none =>
      simp only [unitStep, unitErr, hp]
      rw [ih]
    | some p =>
      cases hf : fetchUnit env arg isOther p with
      | ok c =>
        simp only [unitStep, unitErr, hp, hf]
        rw [ih]
      | error m =>
        simp only [unitStep, unitErr, hp, hf]
        rw [ih]
        simp

lemma runUnits_fst_not_mem (env : FetchEnv) (arg : YamlContentRequestArg)
    (isOther : Bool) (paths : List String) :
    ∀ (order : List Nat) (f : Nat → Option String) (es : List String) (j : Nat),
      j ∉ order →
      (order.foldl (unitStep env arg isOther paths) (f, es)).1 j = f j := by
  intro order
  induction order with
  | nil => intro f es j _; rfl
  | cons i rest ih =>
    intro f es j hj
    have hji : j ≠ i := fun hc => hj (hc ▸ List.mem_cons_self i rest)
    have hjr : j ∉ rest := fun hc => hj (List.mem_cons_of_mem i hc)
    rw [List.foldl_cons]
    cases hp : paths[i]? with
    | none => simp only [unitStep, hp]; exact ih f es j hjr
    | some p =>
      cases hf : fetchUnit env arg isOther p with
      | ok c =>
        simp only [unitStep, hp, hf]
        rw [ih _ es j hjr]
        simp [hji]
      | error m =>
        simp only [unitStep, hp, hf]
        exact ih f _ j hjr

lemma runUnits_fst_mem (env : FetchEnv) (arg : YamlContentRequestArg)
    (isOther : Bool) (paths : List String) :
    ∀ (order : List Nat), order.Nodup →
      ∀ (f : Nat → Option String) (es : List String) (j : Nat), j ∈ order →
      (order.foldl (unitStep env arg isOther paths) (f, es)).1 j =
        (match unitContent env arg isOther paths j with
          | some c => some c
          | none => f j) := by
  intro order
  induction order with
  | nil => intro _ f es j hj; cases hj
  | cons i rest ih =>
    intro hnd f es j hj
    have hir : i ∉ rest := (List.nodup_cons.mp hnd).1
    have hndr : rest.Nodup := (List.nodup_cons.mp hnd).2
    rw [List.foldl_cons]
    rcases List.mem_cons.mp hj with hji | hjr
    · subst hji
      cases hp : paths[j]? with
      | none =>
        simp only [unitStep, hp]
        rw [runUnits_fst_not_mem env arg isOther paths rest f es j hir]
        simp [unitContent, hp]
      | some p =>
        cases hf : fetchUnit env arg isOther p with
        | ok c =>
          simp only [unitStep, hp, hf]
          rw [runUnits_fst_not_mem env arg isOther paths rest _ es j hir]
          simp [unitContent, hp, hf, Except.toOption]
        | error m =>
          simp only [unitStep, hp, hf]
          rw [runUnits_fst_not_mem env arg isOther paths rest f _ j hir]
          simp [unitContent, hp, hf, Except.toOption]
    · have hji : j ≠ i := fun hc => hir (hc ▸ hjr)
      cases hp : paths[i]? with
      | none =>
        simp only [unitStep, hp]
        exact ih hndr f es j hjr
      | some p =>
        cases hf : fetchUnit env arg isOther p with
        | ok c =>
          simp only [unitStep, hp, hf]
          rw [ih hndr _ es j hjr]
          simp [hji]
        | error m =>
          simp only [unitStep, hp, hf]
          exact ih hndr f _ j hjr

lemma runUnits_fst_spec (env : FetchEnv) (arg : YamlContentRequestArg)
    (isOther : Bool) (paths : List String) (order : List Nat)
    (hnd : order.Nodup) (j : Nat) :
    (runUnits env arg isOther paths order).1 j =
      if j ∈ order then
        (match unitContent env arg isOther paths j with
          | some c => some c
          | none => none)
      else none := by
  unfold runUnits
  by_cases hj : j ∈ order
  · rw [runUnits_fst_mem env arg isOther paths order hnd _ _ j hj, if_pos hj]
  · rw [runUnits_fst_not_mem env arg isOther paths order _ _ j hj, if_neg hj]

lemma runUnits_snd_spec (env : FetchEnv) (arg : YamlContentRequestArg)
    (isOther : Bool) (paths : List String) (order : List Nat) :
    (runUnits env arg isOther paths order).2 =
      order.filterMap (unitErr env arg isOther paths) := by
  unfold runUnits
  rw [runUnits_foldl_snd]
  simp

/-- Full characterization of the fan-out/fan-in stage for any completion
order that is a permutation of the path indices: the error list is the
completion-ordered failure messages, and the merged content is rebuilt in
caller index order, independent of `order`. -/
lemma fetchAndMerge_spec (env : FetchEnv) (arg : YamlContentRequestArg)
    (isOther : Bool) (paths : List String) (order : List Nat)
    (hperm : order.Perm (List.range paths.length)) :
    fetchAndMerge env arg isOther paths order =
      (if (order.filterMap (unitErr env arg isOther paths)).isEmpty then
        match env.mergeYaml ((List.range paths.length).filterMap
            (unitContent env arg isOther paths)) with
        | .error e => ("", some (.mergeFailed ("failed to merge files: " ++ e)))
        | .ok m => (m, none)
      else ("", some (.aggregated
        (order.filterMap (unitErr env arg isOther paths))))) := by
  have hnd : order.Nodup := hperm.nodup_iff.mpr (List.nodup_range _)
  have hstore : (List.range paths.length).filterMap
      (runUnits env arg isOther paths order).1 =
      (List.range paths.length).filterMap (unitContent env arg isOther paths) := by
    apply List.filterMap_congr
    intro i hi
    rw [runUnits_fst_spec env arg isOther paths order hnd i,
      if_pos (hperm.mem_iff.mpr hi)]
    cases unitContent env arg isOther paths i <;> rfl
  simp only [fetchAndMerge]
  rw [runUnits_snd_spec, hstore]

/-- The two pre-stage oracle checks out of the way, `GetMergedYamlContent`
is the fan-out/fan-in stage. -/
lemma getMerged_reduces (env : FetchEnv) (arg : YamlContentRequestArg)
    (paths : List String) (order : List Nat) (detail : CodeHost)
    (hhost : env.getCodeHost arg.codehostID = .ok detail)
    (hgit : (detail.hostType == SourceFromOther) = true → env.runGitCmds = none) :
    GetMergedYamlContent env arg paths order =
      fetchAndMerge env arg (detail.hostType == SourceFromOther) paths order := by
  unfold GetMergedYamlContent
  rw [hhost]
  cases hb : detail.hostType == SourceFromOther with
  | true => simp [hb, hgit hb]
  | false => simp [hb]

lemma unitErr_lt (env : FetchEnv) (arg : YamlContentRequestArg)
    (isOther : Bool) (paths : List String) (i : Nat) (m : String)
    (h : unitErr env arg isOther paths i = some m) : i < paths.length := by
  unfold unitErr at h
  by_contra hc
  rw [List.getElem?_eq_none (by omega)] at h
  cases h

/-- C6 (confirmed). When the codehost lookup and the one-time git sync
succeed, any completion order that is a permutation of the path indices and
contains at least one failing fetch makes `GetMergedYamlContent` return
empty content together with the aggregated error holding the wrapped
message of every failing path — never a partial merge, never only the first
failure. -/
theorem c6_aggregated_failures (env : FetchEnv) (arg : YamlContentRequestArg)
    (paths : List String) (order : List Nat) (detail : CodeHost)
    (hhost : env.getCodeHost arg.codehostID = .ok detail)
    (hgit : (detail.hostType == SourceFromOther) = true → env.runGitCmds = none)
    (hperm : order.Perm (List.range paths.length))
    (hfail : ∃ i, i < paths.length ∧
      (unitErr env arg (detail.hostType == SourceFromOther) paths i).isSome) :
    ∃ msgs,
      GetMergedYamlContent env arg paths order = ("", some (MergeErr.aggregated msgs))
      ∧ msgs ≠ []
      ∧ ∀ i m,
          unitErr env arg (detail.hostType == SourceFromOther) paths i = some m →
          m ∈ msgs := by
  obtain ⟨i0, hi0, hsome⟩ := hfail
  obtain ⟨m0, hm0⟩ := Option.isSome_iff_exists.mp hsome
  have hmem0 : m0 ∈ order.filterMap
      (unitErr env arg (detail.hostType == SourceFromOther) paths) :=
    List.mem_filterMap.mpr
      ⟨i0, hperm.mem_iff.mpr (List.mem_range.mpr hi0), hm0⟩
  have hne : order.filterMap
      (unitErr env arg (detail.hostType == SourceFromOther) paths) ≠ [] :=
    List.ne_nil_of_mem hmem0
  refine ⟨order.filterMap (unitErr env arg (detail.hostType == SourceFromOther) paths),
    ?_, hne, ?_⟩
  · rw [getMerged_reduces env arg paths order detail hhost hgit,
      fetchAndMerge_spec env arg _ paths order hperm]
    cases hE : (order.filterMap
        (unitErr env arg (detail.hostType == SourceFromOther) paths)).isEmpty with
    | true => exact absurd (List.isEmpty_iff.mp hE) hne
    | false => simp [hE]
  · intro i m hm
    exact List.mem_filterMap.mpr
      ⟨i, hperm.mem_iff.mpr (List.mem_range.mpr
        (unitErr_lt env arg _ paths i m hm)), hm⟩

/-- C7 (confirmed). When every fetch succeeds, the result is independent of
the completion order: any two index permutations yield the same output, and
the output is the external merge applied to the contents rebuilt strictly
in caller index order. -/
theorem c7_merge_deterministic (env : FetchEnv) (arg : YamlContentRequestArg)
    (paths : List String) (order order' : List Nat) (detail : CodeHost)
    (hhost : env.getCodeHost arg.codehostID = .ok detail)
    (hgit : (detail.hostType == SourceFromOther) = true → env.runGitCmds = none)
    (hperm : order.Perm (List.range paths.length))
    (hperm2 : order'.Perm (List.range paths.length))
    (hok : ∀ i, i < paths.length →
      unitErr env arg (detail.hostType == SourceFromOther) paths i = none) :
    GetMergedYamlContent env arg paths order = GetMergedYamlContent env arg paths order'
    ∧ GetMergedYamlContent env arg paths order =
        (match env.mergeYaml ((List.range paths.length).filterMap
            (unitContent env arg (detail.hostType == SourceFromOther) paths)) with
        | .error e => ("", some (MergeErr.mergeFailed ("failed to merge files: " ++ e)))
        | .ok m => (m, none)) := by
  have hnil : ∀ o : List Nat, o.Perm (List.range paths.length) →
      o.filterMap (unitErr env arg (detail.hostType == SourceFromOther) paths) = [] := by
    intro o hp
    rw [List.filterMap_eq_nil_iff]
    intro a ha
    exact hok a (List.mem_range.mp (hp.mem_iff.mp ha))
  have hchar : ∀ o : List Nat, o.Perm (List.range paths.length) →
      GetMergedYamlContent env arg paths o =
        (match env.mergeYaml ((List.range paths.length).filterMap
            (unitContent env arg (detail.hostType == SourceFromOther) paths)) with
        | .error e => ("", some (MergeErr.mergeFailed ("failed to merge files: " ++ e)))
        | .ok m => (m, none)) := by
    intro o hp
    rw [getMerged_reduces env arg paths o detail hhost hgit,
      fetchAndMerge_spec env arg _ paths o hp, hnil o hp]
    rfl
  exact ⟨(hchar order hperm).trans (hchar order' hperm2).symm, hchar order hperm⟩

/-- Sample request argument for the fetch-merge witnesses. -/
def yamlArgW : YamlContentRequestArg :=
  ⟨7, "ow", "repo1", "ns", "main", "", ""⟩

/-- Sample fetch oracle whose download fails on `b.yaml` with a network
error and succeeds on `a.yaml`. -/
def fetchEnvFail : FetchEnv :=
  ⟨fun _ => .ok ⟨"github"⟩, none, "/s3", fun a b => a ++ "/" ++ b,
   fun _ => .error "no file",
   fun a => if a.path = "a.yaml" then .ok "a: 1" else .error "network error",
   fun l => .ok (goJoin l "\n")⟩

/-- Sample fetch oracle whose downloads all succeed. -/
def fetchEnvOk : FetchEnv :=
  ⟨fun _ => .ok ⟨"github"⟩, none, "/s3", fun a b => a ++ "/" ++ b,
   fun _ => .error "no file",
   fun a => .ok ("c-" ++ a.path),
   fun l => .ok (goJoin l "\n")⟩

/-- C6 (witness). A failing `b.yaml` fetch, completing first, voids the
merge and its wrapped message is aggregated. -/
theorem c6_witness :
    ∃ msgs,
      GetMergedYamlContent fetchEnvFail yamlArgW ["a.yaml", "b.yaml"] [1, 0] =
        ("", some (MergeErr.aggregated msgs))
      ∧ "failed to download file from git, path b.yaml: network error" ∈ msgs := by
  obtain ⟨msgs, h1, _, h3⟩ :=
    c6_aggregated_failures fetchEnvFail yamlArgW ["a.yaml", "b.yaml"] [1, 0]
      ⟨"github"⟩ rfl (fun _ => rfl)
      (by decide) ⟨1, by decide, rfl⟩
  exact ⟨msgs, h1,
    h3 1 "failed to download file from git, path b.yaml: network error" rfl⟩

/-- C7 (witness). With both fetches succeeding, the reversed completion
order produces the same merged result as the caller order. -/
theorem c7_witness :
    GetMergedYamlContent fetchEnvOk yamlArgW ["a.yaml", "b.yaml"] [1, 0] =
      GetMergedYamlContent fetchEnvOk yamlArgW ["a.yaml", "b.yaml"] [0, 1] :=
  (c7_merge_deterministic fetchEnvOk yamlArgW ["a.yaml", "b.yaml"] [1, 0] [0, 1]
    ⟨"github"⟩ rfl (fun _ => rfl)
    (by decide) (by decide)
    (by
      intro i hi
      have h2 : i < 2 := hi
      match i with
      | 0 => rfl
      | 1 => rfl
      | n + 2 => exact absurd h2 (by omega))).1

end Zadig
